import Mathlib

/-!
Verification of the recommendation pipeline in
`listenbrainz_spark/recommendations/recording/recommend.py`.

The Spark dataframes are embedded as Lean lists of rows; the SQL queries of the
source are embedded as list transformations with relational-join semantics
(an inner join pairs every matching row, a left join keeps an unmatched left
row once with a `none` payload).  Python exceptions are embedded as
`Except RecError`.  Floating point scores are embedded as rationals and the
ISO-8601 formatting of `latest_listened_at` is abstracted as the identity on
the underlying instant, neither of which affects the claims below.
-/

namespace Recommend

/-- Row of the `recommendation` view: the dataframe of `spark_user_id`,
`recording_id`, `prediction` produced by the model. -/
structure PredRow where
  spark_user_id : Nat
  recording_id : Nat
  prediction : Rat
  deriving DecidableEq

/-- Row of the `recording` view: maps an internal `recording_id` to its
`recording_mbid`. -/
structure RecordingRow where
  recording_id : Nat
  recording_mbid : String
  deriving DecidableEq

/-- Row of the `user` view: maps the internal `spark_user_id` to the
exposed `user_id`. -/
structure UserRow where
  spark_user_id : Nat
  user_id : Nat
  deriving DecidableEq

/-- Row of the `recording_discovery` view: the listen-history timestamp for a
(user_id, recording_mbid) pair. -/
structure DiscoveryRow where
  user_id : Nat
  recording_mbid : String
  latest_listened_at : Nat
  deriving DecidableEq

/-- Ordering used by the window clause ORDER BY prediction DESC. -/
def predGE (a b : PredRow) : Prop := b.prediction ≤ a.prediction

instance : DecidableRel predGE :=
  fun a b => inferInstanceAs (Decidable (b.prediction ≤ a.prediction))

instance : IsTotal PredRow predGE := ⟨fun a b => le_total b.prediction a.prediction⟩

instance : IsTrans PredRow predGE := ⟨fun _ _ _ hab hbc => le_trans hbc hab⟩

/-- Row of the `ranked_recommendation` CTE: a prediction row together with its
1-based `row_number()` rank inside its user partition. -/
structure RankedRow where
  spark_user_id : Nat
  recording_id : Nat
  score : Rat
  rank : Nat
  deriving DecidableEq

/-- Predictions of one window partition, i.e. of one `spark_user_id`. -/
def userPreds (preds : List PredRow) (u : Nat) : List PredRow :=
  preds.filter (fun p => decide (p.spark_user_id = u))

/-- Order a partition by the window ordering (prediction descending).
`row_number` breaks score ties in an unspecified way; the embedding fixes the
stable insertion-sort order. -/
def sortPredsDesc (l : List PredRow) : List PredRow :=
  List.insertionSort predGE l

/-- Assign 1-based ranks down a list already ordered by the window ordering. -/
def withRanks (u : Nat) : List PredRow → Nat → List RankedRow
  | [], _ => []
  | p :: rest, r => ⟨u, p.recording_id, p.prediction, r⟩ :: withRanks u rest (r + 1)

/-- The ranked rows of user `u`: the partition sorted by score descending, with
`row_number()` starting at 1. -/
def rankUser (preds : List PredRow) (u : Nat) : List RankedRow :=
  withRanks u (sortPredsDesc (userPreds preds u)) 1

/-- The distinct window partitions (spark user ids) of the prediction table. -/
def partitionUsers (preds : List PredRow) : List Nat :=
  (preds.map (·.spark_user_id)).dedup

/-- The full `ranked_recommendation` CTE. -/
def ranked_recommendation (preds : List PredRow) : List RankedRow :=
  (partitionUsers preds).flatMap (rankUser preds)

/-- Row of the join in the main SELECT, before grouping; provenance columns
(`spark_user_id`, `recording_id`, `rank`) are kept for the WHERE clause and
are dropped by the GROUP BY. -/
structure JoinedRow where
  spark_user_id : Nat
  recording_id : Nat
  score : Rat
  rank : Nat
  user_id : Nat
  recording_mbid : String
  latest_listened_at : Option Nat
  deriving DecidableEq

/-- Rows of `recording_discovery` matching the USING (user_id, recording_mbid)
condition of the left join. -/
def discoveryMatches (discovery : List DiscoveryRow) (e : Nat) (mbid : String) :
    List DiscoveryRow :=
  discovery.filter (fun d => decide (d.user_id = e) && decide (d.recording_mbid = mbid))

/-- LEFT JOIN recording_discovery USING (user_id, recording_mbid): an unmatched
left row survives once with a null timestamp, a matched one is paired with
every matching discovery row. -/
def leftJoinDiscovery (discovery : List DiscoveryRow) (rr : RankedRow)
    (mbid : String) (e : Nat) : List JoinedRow :=
  if (discoveryMatches discovery e mbid).isEmpty then
    [⟨rr.spark_user_id, rr.recording_id, rr.score, rr.rank, e, mbid, none⟩]
  else
    (discoveryMatches discovery e mbid).map (fun d =>
      ⟨rr.spark_user_id, rr.recording_id, rr.score, rr.rank, e, mbid, some d.latest_listened_at⟩)

/-- FROM ranked_recommendation JOIN recording USING (recording_id)
JOIN user USING (spark_user_id) LEFT JOIN recording_discovery. -/
def joinedRows (preds : List PredRow) (recordings : List RecordingRow)
    (userTable : List UserRow) (discovery : List DiscoveryRow) : List JoinedRow :=
  (ranked_recommendation preds).flatMap (fun rr =>
    (recordings.filter (fun m => decide (m.recording_id = rr.recording_id))).flatMap (fun m =>
      (userTable.filter (fun w => decide (w.spark_user_id = rr.spark_user_id))).flatMap (fun w =>
        leftJoinDiscovery discovery rr m.recording_mbid w.user_id)))

/-- Element of the `recs` array built by collect_list: the struct
(recording_mbid, score, latest_listened_at). -/
structure RecItem where
  recording_mbid : String
  score : Rat
  latest_listened_at : Option Nat
  deriving DecidableEq

/-- Ordering of the array_sort comparator: score descending. -/
def itemGE (a b : RecItem) : Prop := b.score ≤ a.score

instance : DecidableRel itemGE :=
  fun a b => inferInstanceAs (Decidable (b.score ≤ a.score))

instance : IsTotal RecItem itemGE := ⟨fun a b => le_total b.score a.score⟩

instance : IsTrans RecItem itemGE := ⟨fun _ _ _ hab hbc => le_trans hbc hab⟩

/-- The array_sort of the collected struct array, descending by score. -/
def sortItemsDesc (l : List RecItem) : List RecItem :=
  List.insertionSort itemGE l

/-- Output row of `process_recommendations`: `user_id` with its `recs` array. -/
structure RecsRow where
  user_id : Nat
  recs : List RecItem
  deriving DecidableEq

/-- Projection of a joined row to the collected struct. -/
def toRecItem (j : JoinedRow) : RecItem :=
  ⟨j.recording_mbid, j.score, j.latest_listened_at⟩

/-- Joined rows surviving the WHERE rank <= limit clause. -/
def keptRows (preds : List PredRow) (recordings : List RecordingRow)
    (userTable : List UserRow) (discovery : List DiscoveryRow) (limit : Nat) :
    List JoinedRow :=
  (joinedRows preds recordings userTable discovery).filter
    (fun j => decide (j.rank ≤ limit))

/-- Embedding of `process_recommendations(recommendation_df, limit)`: rank each
user partition by score descending, keep rank ≤ limit, resolve mbids and user
ids by inner joins, left-join the listen history, group by user_id and sort
each collected array by score descending. -/
def process_recommendations (preds : List PredRow) (recordings : List RecordingRow)
    (userTable : List UserRow) (discovery : List DiscoveryRow) (limit : Nat) :
    List RecsRow :=
  (((keptRows preds recordings userTable discovery limit).map (·.user_id)).dedup).map (fun e =>
    ⟨e, sortItemsDesc (((keptRows preds recordings userTable discovery limit).filter
      (fun j => decide (j.user_id = e))).map toRecItem)⟩)

/-- The RankedList that `process_recommendations` produced for external user
`e`: the `recs` array of its (unique) output row, or `[]` if no row exists. -/
def recListFor (out : List RecsRow) (e : Nat) : List RecItem :=
  ((out.find? (fun r => decide (r.user_id = e))).map RecsRow.recs).getD []

/-- Per-user accumulator of `create_messages`: the value shape of the
defaultdict, one list per source. -/
structure Bundle where
  top_artist : List RecItem
  similar_artist : List RecItem
  raw : List RecItem
  deriving DecidableEq

/-- Default value produced by the defaultdict for a missing user. -/
def emptyBundle : Bundle := ⟨[], [], []⟩

/-- Assignment `user_rec[uid][field] = recs` on the insertion-ordered
defaultdict: update the existing entry in place, or append a fresh entry whose
missing fields default to empty lists. -/
def upsert (assoc : List (Nat × Bundle)) (uid : Nat) (f : Bundle → Bundle) :
    List (Nat × Bundle) :=
  match assoc with
  | [] => [(uid, f emptyBundle)]
  | (k, b) :: rest =>
      if k = uid then (k, f b) :: rest else (k, b) :: upsert rest uid f

/-- One of the three row loops of `create_messages`: iterate the source's rows
in order, assigning each row's `recs` into that user's bundle. -/
def ingest (set : List RecItem → Bundle → Bundle) (assoc : List (Nat × Bundle))
    (rows : List RecsRow) : List (Nat × Bundle) :=
  rows.foldl (fun acc row => upsert acc row.user_id (set row.recs)) assoc

/-- Field assignment of the top_artist loop. -/
def setTop (recs : List RecItem) (b : Bundle) : Bundle :=
  { b with top_artist := recs }

/-- Field assignment of the similar_artist loop. -/
def setSimilar (recs : List RecItem) (b : Bundle) : Bundle :=
  { b with similar_artist := recs }

/-- Field assignment of the raw loop. -/
def setRaw (recs : List RecItem) (b : Bundle) : Bundle :=
  { b with raw := recs }

/-- Messages yielded by `create_messages`: one per user bundle, plus the final
mail summary. -/
inductive Message where
  | userMsg (user_id : Nat) (msgType : String) (top_artist similar_artist raw : List RecItem)
      (model_id : String) (model_url : String)
  | mail (msgType : String) (active_user_count top_artist_user_count
      similar_artist_user_count raw_user_count : Nat) (total_time_hours : Rat)
  deriving DecidableEq

/-- The model_url string interpolated into each per-user message. -/
def modelUrl (model_html_file : String) : String :=
  "http://michael.metabrainz.org/" ++ model_html_file

/-- Per-user message built from a bundle. -/
def toUserMessage (model_id model_html_file : String) (p : Nat × Bundle) : Message :=
  Message.userMsg p.1 "cf_recommendations_recording_recommendations"
    p.2.top_artist p.2.similar_artist p.2.raw model_id (modelUrl model_html_file)

/-- The `user_rec` defaultdict after the three row loops of `create_messages`
ran in order: top_artist rows first, then similar_artist, then raw. -/
def bundlesOf (top_artist_recs similar_artist_recs raw_recs : List RecsRow) :
    List (Nat × Bundle) :=
  ingest setRaw (ingest setSimilar (ingest setTop [] top_artist_recs)
    similar_artist_recs) raw_recs

/-- Embedding of `create_messages`: fill the defaultdict from the three source
dataframes (counting one per row in each loop), yield one message per user in
insertion order, then yield the single mail summary.  The Python generator is
embedded as the list of messages it yields; `total_time / 3600` stands for the
two-decimal hour formatting of the summary. -/
def create_messages (model_id model_html_file : String)
    (top_artist_recs similar_artist_recs raw_recs : List RecsRow)
    (active_user_count : Nat) (total_time : Rat) : List Message :=
  (bundlesOf top_artist_recs similar_artist_recs raw_recs).map
    (toUserMessage model_id model_html_file) ++
    [Message.mail "cf_recommendations_recording_mail" active_user_count
      top_artist_recs.length similar_artist_recs.length raw_recs.length
      (total_time / 3600)]

/-- Exceptions of the pipeline, one constructor per exception class raised or
propagated by the source. -/
inductive RecError where
  | sparkSessionNotInitialized
  | pathNotFound
  | fileNotFetched
  | recommendationsNotGenerated
  | emptyDataframe
  | modelLoadFault
  | bootstrapFault
  deriving DecidableEq

/-- Row of a candidate set dataframe. -/
structure CandidateRow where
  spark_user_id : Nat
  recording_id : Nat
  user_id : Nat
  deriving DecidableEq

/-- External ALS model capabilities used by the pipeline: `transform` scores a
candidate set, `recommendForUserSubset` returns per-user nested top-N
recommendations. -/
structure Model where
  transform : List (Nat × Nat) → List PredRow
  recommendForUserSubset : List Nat → Nat → List (Nat × List (Nat × Rat))

/-- The (spark_user_id, recording_id) projection of the candidate set,
restricted to the requested users when that list is non-empty. -/
def candidateProjection (candidate_set_df : List CandidateRow) (users : List Nat) :
    List (Nat × Nat) :=
  if users.isEmpty then
    candidate_set_df.map (fun r => (r.spark_user_id, r.recording_id))
  else
    (candidate_set_df.filter (fun r => decide (r.user_id ∈ users))).map
      (fun r => (r.spark_user_id, r.recording_id))

/-- Embedding of `get_candidate_set_rdd_for_user`: project (and, when `users`
is non-empty, restrict) the candidate set; raise EmptyDataframeExcpetion when
the result is empty. -/
def get_candidate_set_rdd_for_user (candidate_set_df : List CandidateRow)
    (users : List Nat) : Except RecError (List (Nat × Nat)) :=
  let candidate_set_user_df := candidateProjection candidate_set_df users
  if candidate_set_user_df.isEmpty then Except.error RecError.emptyDataframe
  else Except.ok candidate_set_user_df

/-- Embedding of `generate_recommendations`: score the candidate set, raise
RecommendationsNotGeneratedException when no prediction rows came back, else
rank them. -/
def generate_recommendations (candidate_set : List (Nat × Nat)) (model : Model)
    (limit : Nat) (recordings : List RecordingRow) (userTable : List UserRow)
    (discovery : List DiscoveryRow) : Except RecError (List RecsRow) :=
  let recommendations := model.transform candidate_set
  if recommendations.isEmpty then Except.error RecError.recommendationsNotGenerated
  else Except.ok (process_recommendations recommendations recordings userTable discovery limit)

/-- Embedding of `get_user_name_and_user_id`: the distinct
(spark_user_id, user_id) pairs of the top artist candidate set, restricted to
the requested users when given; raise EmptyDataframeExcpetion (no active
users) when empty. -/
def get_user_name_and_user_id (top_artist_candidate_set_df : List CandidateRow)
    (users : List Nat) : Except RecError (List UserRow) :=
  let users_df :=
    if users.length = 0 then
      ((top_artist_candidate_set_df.map (fun r => UserRow.mk r.spark_user_id r.user_id))).dedup
    else
      ((top_artist_candidate_set_df.filter (fun r => decide (r.user_id ∈ users))).map
        (fun r => UserRow.mk r.spark_user_id r.user_id)).dedup
  if users_df.isEmpty then Except.error RecError.emptyDataframe
  else Except.ok users_df

/-- Embedding of `get_recommendations_for_candidate_set`: restrict the
candidate set then generate; both except blocks of the source log and
re-raise, so errors propagate unchanged. -/
def get_recommendations_for_candidate_set (model : Model)
    (candidate_set_df : List CandidateRow) (limit : Nat) (users : List Nat)
    (recordings : List RecordingRow) (userTable : List UserRow)
    (discovery : List DiscoveryRow) : Except RecError (List RecsRow) := do
  let candidate_subset ← get_candidate_set_rdd_for_user candidate_set_df users
  generate_recommendations candidate_subset model limit recordings userTable discovery

/-- Embedding of `get_raw_recommendations`: ask the model for per-user top-N
recommendations, flatten the nested arrays with explode, and rank the result.
No emptiness check is performed on this path. -/
def get_raw_recommendations (model : Model) (limit : Nat) (users_df : List UserRow)
    (recordings : List RecordingRow) (userTable : List UserRow)
    (discovery : List DiscoveryRow) : List RecsRow :=
  let raw_recommendations := model.recommendForUserSubset (users_df.map (·.spark_user_id)) limit
  let flattened := raw_recommendations.flatMap (fun ur =>
    ur.2.map (fun rec => PredRow.mk ur.1 rec.1 rec.2))
  process_recommendations flattened recordings userTable discovery limit

/-- Flattened prediction rows of the raw path, named for the statements. -/
def flattenRaw (model : Model) (limit : Nat) (users_df : List UserRow) : List PredRow :=
  (model.recommendForUserSubset (users_df.map (·.spark_user_id)) limit).flatMap (fun ur =>
    ur.2.map (fun rec => PredRow.mk ur.1 rec.1 rec.2))

/-- Row of the model_metadata view. -/
structure ModelMetaRow where
  model_id : String
  model_html_file : String
  model_created : Nat
  deriving DecidableEq

/-- Ordering of ORDER BY model_created DESC. -/
def metaGE (a b : ModelMetaRow) : Prop := b.model_created ≤ a.model_created

instance : DecidableRel metaGE :=
  fun a b => inferInstanceAs (Decidable (b.model_created ≤ a.model_created))

/-- Embedding of `get_most_recent_model_meta`: most recently created model;
`collect()[0]` on an empty table raises (a bootstrap fault). -/
def get_most_recent_model_meta (model_metadata : List ModelMetaRow) :
    Except RecError (String × String) :=
  match (List.insertionSort metaGE model_metadata).head? with
  | some meta => Except.ok (meta.model_id, meta.model_html_file)
  | none => Except.error RecError.bootstrapFault

/-- External effects of `main`, embedded as their results: session bootstrap,
the HDFS reads, the model load, and the measured wall-clock run time. -/
structure Env where
  session : Except RecError Unit
  recordingsRead : Except RecError (List RecordingRow)
  topArtistCandidateRead : Except RecError (List CandidateRow)
  similarArtistCandidateRead : Except RecError (List CandidateRow)
  recordingDiscoveryRead : Except RecError (List DiscoveryRow)
  modelMetadataRead : Except RecError (List ModelMetaRow)
  modelLoad : Except RecError Model
  totalTime : Rat

/-- Embedding of `main`: every stage either succeeds or raises; each except
block of the source logs and re-raises, so the first failing stage aborts the
run and no messages are constructed.  `users_df.length` is the
active_user_count, and the raw generation has no failure path. -/
def main (env : Env) (recommendation_top_artist_limit recommendation_similar_artist_limit
    recommendation_raw_limit : Nat) (users : List Nat) :
    Except RecError (List Message) :=
  env.session.bind fun _ =>
  env.recordingsRead.bind fun recordings =>
  env.topArtistCandidateRead.bind fun top_artist_candidate_set =>
  env.similarArtistCandidateRead.bind fun similar_artist_candidate_set =>
  env.recordingDiscoveryRead.bind fun recording_discovery =>
  env.modelMetadataRead.bind fun model_metadata =>
  (get_most_recent_model_meta model_metadata).bind fun meta =>
  env.modelLoad.bind fun model =>
  (get_user_name_and_user_id top_artist_candidate_set users).bind fun users_df =>
  (get_recommendations_for_candidate_set model top_artist_candidate_set
    recommendation_top_artist_limit users recordings users_df recording_discovery).bind
    fun top_artist_recs =>
  (get_recommendations_for_candidate_set model similar_artist_candidate_set
    recommendation_similar_artist_limit users recordings users_df recording_discovery).bind
    fun similar_artist_recs =>
  Except.ok (create_messages meta.1 meta.2 top_artist_recs similar_artist_recs
    (get_raw_recommendations model recommendation_raw_limit users_df recordings users_df
      recording_discovery)
    users_df.length env.totalTime)

/-- Bundle stored for user `uid` in the insertion-ordered defaultdict. -/
def lookupB (assoc : List (Nat × Bundle)) (uid : Nat) : Option Bundle :=
  (assoc.find? (fun p => decide (p.1 = uid))).map Prod.snd

/-- The `recs` list of the last row of `rows` whose user is `uid`. -/
def lastRecsFor (rows : List RecsRow) (uid : Nat) : Option (List RecItem) :=
  ((rows.filter (fun r => decide (r.user_id = uid))).map (·.recs)).getLast?

/-- True exactly on the mail summary message. -/
def isMailMsg : Message → Bool
  | Message.mail _ _ _ _ _ _ => true
  | _ => false

/-- True exactly on a per-user message for user `u`. -/
def isUserMsgFor (u : Nat) : Message → Bool
  | Message.userMsg uid _ _ _ _ _ _ => decide (uid = u)
  | _ => false

/-- The unique joined row that a ranked row of the user with external id `e`
yields when the metadata lookup is `f` and the listen history has at most one
matching row. -/
def jrowOf (discovery : List DiscoveryRow) (e : Nat) (f : Nat → String)
    (rr : RankedRow) : JoinedRow :=
  ⟨rr.spark_user_id, rr.recording_id, rr.score, rr.rank, e, f rr.recording_id,
    ((discoveryMatches discovery e (f rr.recording_id)).head?).map DiscoveryRow.latest_listened_at⟩

/-! ### General list lemmas -/

theorem flatMap_eq_nil_of {α β : Type} {l : List α} {g : α → List β}
    (h : ∀ a ∈ l, g a = []) : l.flatMap g = [] := by
  induction l with
  | nil => rfl
  | cons a t ih =>
      rw [List.flatMap_cons, h a (List.mem_cons_self a t), List.nil_append]
      exact ih fun x hx => h x (List.mem_cons_of_mem a hx)

theorem flatMap_singleton_fun {α β : Type} (l : List α) (h : α → β) :
    (l.flatMap fun a => [h a]) = l.map h := by
  induction l with
  | nil => rfl
  | cons a t ih => rw [List.flatMap_cons, List.map_cons, List.singleton_append, ih]

theorem flatMap_ite_eq_filter_flatMap {α β : Type} (l : List α) (p : α → Bool)
    (g : α → List β) :
    (l.flatMap fun a => if p a then g a else []) = (l.filter p).flatMap g := by
  induction l with
  | nil => rfl
  | cons a t ih => cases hp : p a <;> simp [hp, ih, List.filter_cons]

theorem flatMap_support_single {β : Type} (l : List Nat) (u : Nat) (g : Nat → List β)
    (hl : l.Nodup) (h : ∀ a ∈ l, a ≠ u → g a = []) :
    l.flatMap g = if u ∈ l then g u else [] := by
  induction l with
  | nil => simp
  | cons a t ih =>
      rw [List.flatMap_cons]
      by_cases hau : a = u
      · subst hau
        have hat : a ∉ t := (List.nodup_cons.1 hl).1
        have ht : t.flatMap g = [] := by
          refine flatMap_eq_nil_of fun x hx => ?_
          refine h x (List.mem_cons_of_mem a hx) fun hxu => ?_
          exact hat (hxu ▸ hx)
        simp [ht]
      · have hrec := ih (List.nodup_cons.1 hl).2
          (fun x hx hxu => h x (List.mem_cons_of_mem a hx) hxu)
        rw [h a (List.mem_cons_self a t) hau, List.nil_append, hrec]
        by_cases hut : u ∈ t <;> simp [hut, List.mem_cons, Ne.symm hau]

theorem find?_self_of_mem {e : Nat} {l : List Nat} (h : e ∈ l) :
    l.find? (fun a => decide (a = e)) = some e := by
  induction l with
  | nil => cases h
  | cons a t ih =>
      by_cases hae : a = e
      · subst hae
        exact List.find?_cons_of_pos t (by simp)
      · rw [List.find?_cons_of_neg t (by simp [hae])]
        rcases List.mem_cons.1 h with hh | hh
        · exact absurd hh.symm hae
        · exact ih hh

/-! ### Lemmas about the defaultdict of create_messages -/

theorem mem_keys_upsert (assoc : List (Nat × Bundle)) (uid k : Nat) (f : Bundle → Bundle) :
    k ∈ (upsert assoc uid f).map Prod.fst ↔ k ∈ assoc.map Prod.fst ∨ k = uid := by
  induction assoc with
  | nil => simp [upsert]
  | cons p rest ih =>
      obtain ⟨a, b⟩ := p
      by_cases h : a = uid
      · subst h; simp [upsert]; tauto
      · simp [upsert, h, ih]; tauto

theorem nodup_keys_upsert (assoc : List (Nat × Bundle)) (uid : Nat) (f : Bundle → Bundle)
    (h : (assoc.map Prod.fst).Nodup) : ((upsert assoc uid f).map Prod.fst).Nodup := by
  induction assoc with
  | nil => simp [upsert]
  | cons p rest ih =>
      obtain ⟨a, b⟩ := p
      rw [List.map_cons, List.nodup_cons] at h
      by_cases hau : a = uid
      · subst hau
        simpa [upsert, List.nodup_cons] using h
      · rw [upsert]
        simp only [hau, if_false, List.map_cons, List.nodup_cons]
        refine ⟨fun hmem => ?_, ih h.2⟩
        rcases (mem_keys_upsert rest uid a f).1 hmem with hh | hh
        · exact h.1 hh
        · exact hau hh

theorem lookupB_cons_self (a : Nat) (b : Bundle) (rest : List (Nat × Bundle)) :
    lookupB ((a, b) :: rest) a = some b := by
  rw [lookupB, List.find?_cons_of_pos rest (by simp)]
  rfl

theorem lookupB_cons_other (a : Nat) (b : Bundle) (rest : List (Nat × Bundle)) (k : Nat)
    (h : a ≠ k) : lookupB ((a, b) :: rest) k = lookupB rest k := by
  rw [lookupB, List.find?_cons_of_neg rest (by simp [h])]
  rfl

theorem lookupB_upsert_self (assoc : List (Nat × Bundle)) (uid : Nat) (f : Bundle → Bundle) :
    lookupB (upsert assoc uid f) uid = some (f ((lookupB assoc uid).getD emptyBundle)) := by
  induction assoc with
  | nil =>
      rw [upsert, lookupB, List.find?_cons_of_pos [] (by simp)]
      rfl
  | cons p rest ih =>
      obtain ⟨a, b⟩ := p
      by_cases hau : a = uid
      · subst hau
        rw [upsert, if_pos rfl, lookupB_cons_self, lookupB_cons_self]
        rfl
      · rw [upsert, if_neg hau, lookupB_cons_other a b _ uid hau,
          lookupB_cons_other a b rest uid hau]
        exact ih

theorem lookupB_upsert_other (assoc : List (Nat × Bundle)) (uid k : Nat) (f : Bundle → Bundle)
    (h : k ≠ uid) : lookupB (upsert assoc uid f) k = lookupB assoc k := by
  induction assoc with
  | nil =>
      rw [upsert, lookupB, lookupB, List.find?_cons_of_neg [] (by simpa using Ne.symm h)]
  | cons p rest ih =>
      obtain ⟨a, b⟩ := p
      by_cases hau : a = uid
      · subst hau
        rw [upsert, if_pos rfl, lookupB_cons_other a _ rest k (fun hh => h hh.symm),
          lookupB_cons_other a b rest k (fun hh => h hh.symm)]
      · rw [upsert, if_neg hau]
        by_cases hak : a = k
        · subst hak
          rw [lookupB_cons_self, lookupB_cons_self]
        · rw [lookupB_cons_other a b _ k hak, lookupB_cons_other a b rest k hak]
          exact ih

theorem lookupB_isSome_iff (assoc : List (Nat × Bundle)) (k : Nat) :
    (∃ b, lookupB assoc k = some b) ↔ k ∈ assoc.map Prod.fst := by
  induction assoc with
  | nil => simp [lookupB]
  | cons p rest ih =>
      obtain ⟨a, b⟩ := p
      by_cases hak : a = k
      · subst hak
        rw [lookupB_cons_self]
        simp
      · rw [lookupB_cons_other a b rest k hak]
        simp only [List.map_cons, List.mem_cons]
        rw [ih]
        constructor
        · exact Or.inr
        · rintro (hh | hh)
          · exact absurd hh.symm hak
          · exact hh

theorem ingest_nil (set : List RecItem → Bundle → Bundle) (assoc : List (Nat × Bundle)) :
    ingest set assoc [] = assoc := rfl

theorem ingest_cons (set : List RecItem → Bundle → Bundle) (assoc : List (Nat × Bundle))
    (r : RecsRow) (rest : List RecsRow) :
    ingest set assoc (r :: rest) = ingest set (upsert assoc r.user_id (set r.recs)) rest := rfl

theorem mem_keys_ingest (set : List RecItem → Bundle → Bundle) (rows : List RecsRow) :
    ∀ (assoc : List (Nat × Bundle)) (k : Nat),
      k ∈ (ingest set assoc rows).map Prod.fst ↔
        k ∈ assoc.map Prod.fst ∨ k ∈ rows.map RecsRow.user_id := by
  induction rows with
  | nil => intro assoc k; simp [ingest_nil]
  | cons r rest ih =>
      intro assoc k
      rw [ingest_cons, ih, mem_keys_upsert]
      simp [List.mem_cons]
      tauto

theorem nodup_keys_ingest (set : List RecItem → Bundle → Bundle) (rows : List RecsRow) :
    ∀ (assoc : List (Nat × Bundle)), (assoc.map Prod.fst).Nodup →
      ((ingest set assoc rows).map Prod.fst).Nodup := by
  induction rows with
  | nil => intro assoc h; exact h
  | cons r rest ih =>
      intro assoc h
      rw [ingest_cons]
      exact ih _ (nodup_keys_upsert assoc r.user_id (set r.recs) h)

theorem lookupB_ingest_notmem (set : List RecItem → Bundle → Bundle) (rows : List RecsRow)
    (uid : Nat) (h : uid ∉ rows.map RecsRow.user_id) :
    ∀ assoc : List (Nat × Bundle), lookupB (ingest set assoc rows) uid = lookupB assoc uid := by
  induction rows with
  | nil => intro assoc; rfl
  | cons r rest ih =>
      intro assoc
      have h1 : uid ≠ r.user_id := by
        intro hh
        exact h (by simp [hh])
      have h2 : uid ∉ rest.map RecsRow.user_id := by
        intro hh
        exact h (by simp [hh])
      rw [ingest_cons, ih h2, lookupB_upsert_other _ _ _ _ h1]

theorem lookupB_ingest_field (set : List RecItem → Bundle → Bundle)
    (get : Bundle → List RecItem) (hother : ∀ r b, get (set r b) = get b)
    (rows : List RecsRow) (uid : Nat) :
    ∀ assoc : List (Nat × Bundle),
      get ((lookupB (ingest set assoc rows) uid).getD emptyBundle) =
        get ((lookupB assoc uid).getD emptyBundle) := by
  induction rows with
  | nil => intro assoc; rfl
  | cons r rest ih =>
      intro assoc
      rw [ingest_cons, ih]
      by_cases h : uid = r.user_id
      · subst h
        rw [lookupB_upsert_self]
        simp [hother]
      · rw [lookupB_upsert_other _ _ _ _ h]

theorem filter_users_ne_nil_iff (rows : List RecsRow) (uid : Nat) :
    uid ∈ rows.map RecsRow.user_id ↔
      rows.filter (fun r => decide (r.user_id = uid)) ≠ [] := by
  constructor
  · intro h hnil
    rcases List.mem_map.1 h with ⟨r, hr, he⟩
    exact (List.filter_eq_nil_iff.1 hnil r hr) (by simp [he])
  · intro hne
    by_contra hmem
    apply hne
    rw [List.filter_eq_nil_iff]
    intro a ha
    simp only [decide_eq_true_eq]
    intro hau
    exact hmem (List.mem_map.2 ⟨a, ha, hau⟩)

theorem lookupB_ingest_last (set : List RecItem → Bundle → Bundle)
    (hset : ∀ r1 r2 b, set r2 (set r1 b) = set r2 b) (rows : List RecsRow) (uid : Nat) :
    ∀ assoc : List (Nat × Bundle), uid ∈ rows.map RecsRow.user_id →
      ∃ rl, lastRecsFor rows uid = some rl ∧
        lookupB (ingest set assoc rows) uid =
          some (set rl ((lookupB assoc uid).getD emptyBundle)) := by
  induction rows with
  | nil => intro assoc h; simp at h
  | cons r rest ih =>
      intro assoc h
      by_cases hr : r.user_id = uid
      · rw [ingest_cons]
        by_cases hrest : uid ∈ rest.map RecsRow.user_id
        · obtain ⟨rl, hlast, hlook⟩ := ih (upsert assoc r.user_id (set r.recs)) hrest
          refine ⟨rl, ?_, ?_⟩
          · rw [lastRecsFor, List.filter_cons, if_pos (by simp [hr])]
            rw [lastRecsFor] at hlast
            cases hfil : rest.filter (fun x => decide (x.user_id = uid)) with
            | nil => exact absurd hfil ((filter_users_ne_nil_iff rest uid).1 hrest)
            | cons x xs =>
                rw [hfil] at hlast
                rw [List.map_cons, List.map_cons, List.getLast?_cons_cons]
                exact hlast
          · rw [hlook, hr, lookupB_upsert_self]
            simp [hset]
        · refine ⟨r.recs, ?_, ?_⟩
          · rw [lastRecsFor, List.filter_cons, if_pos (by simp [hr])]
            have hfil : rest.filter (fun x => decide (x.user_id = uid)) = [] := by
              by_contra hne
              exact hrest ((filter_users_ne_nil_iff rest uid).2 hne)
            rw [hfil, List.map_cons, List.map_nil, List.getLast?_singleton]
          · rw [lookupB_ingest_notmem set rest uid hrest, hr, lookupB_upsert_self]
      · have hmem : uid ∈ rest.map RecsRow.user_id := by
          rcases List.mem_map.1 h with ⟨x, hx, hxe⟩
          rcases List.mem_cons.1 hx with hh | hh
          · exact absurd (hh ▸ hxe) hr
          · exact List.mem_map.2 ⟨x, hh, hxe⟩
        rw [ingest_cons]
        obtain ⟨rl, hlast, hlook⟩ := ih (upsert assoc r.user_id (set r.recs)) hmem
        refine ⟨rl, ?_, ?_⟩
        · rw [lastRecsFor, List.filter_cons, if_neg (by simp [hr])]
          exact hlast
        · rw [hlook, lookupB_upsert_other _ _ _ _ (fun hh => hr hh.symm)]

theorem filter_eq_single_of_lookup (assoc : List (Nat × Bundle)) (u : Nat) (b : Bundle)
    (hnodup : (assoc.map Prod.fst).Nodup) (hlook : lookupB assoc u = some b) :
    assoc.filter (fun p => decide (p.1 = u)) = [(u, b)] := by
  induction assoc with
  | nil => simp [lookupB] at hlook
  | cons p rest ih =>
      obtain ⟨a, c⟩ := p
      rw [List.map_cons, List.nodup_cons] at hnodup
      by_cases hau : a = u
      · subst hau
        rw [lookupB_cons_self] at hlook
        obtain rfl : c = b := by injection hlook
        rw [List.filter_cons, if_pos (by simp)]
        have : rest.filter (fun p => decide (p.1 = a)) = [] := by
          rw [List.filter_eq_nil_iff]
          intro x hx
          simp only [decide_eq_true_eq]
          intro hxa
          exact hnodup.1 (List.mem_map.2 ⟨x, hx, hxa⟩)
        rw [this]
      · rw [lookupB_cons_other a c rest u hau] at hlook
        rw [List.filter_cons, if_neg (by simp [hau])]
        exact ih hnodup.2 hlook

/-! ### Lemmas about the ranking query -/

theorem flatMap_congr_mem {α β : Type} {l : List α} {g h : α → List β}
    (hgh : ∀ a ∈ l, g a = h a) : l.flatMap g = l.flatMap h := by
  induction l with
  | nil => rfl
  | cons a t ih =>
      rw [List.flatMap_cons, List.flatMap_cons, hgh a (List.mem_cons_self a t),
        ih fun x hx => hgh x (List.mem_cons_of_mem a hx)]

theorem filter_key_eq_nil {α : Type} (key : α → Nat) (l : List α) (e : Nat)
    (h : e ∉ l.map key) : l.filter (fun x => decide (key x = e)) = [] := by
  rw [List.filter_eq_nil_iff]
  intro x hx
  simp only [decide_eq_true_eq]
  intro hxe
  exact h (List.mem_map.2 ⟨x, hx, hxe⟩)

theorem spark_of_mem_withRanks (u : Nat) (l : List PredRow) :
    ∀ (r : Nat) (x : RankedRow), x ∈ withRanks u l r → x.spark_user_id = u := by
  induction l with
  | nil => intro r x hx; cases hx
  | cons p rest ih =>
      intro r x hx
      rcases List.mem_cons.1 hx with hh | hh
      · subst hh; rfl
      · exact ih (r + 1) x hh

theorem map_rid_withRanks (u : Nat) (l : List PredRow) :
    ∀ r : Nat, (withRanks u l r).map RankedRow.recording_id = l.map PredRow.recording_id := by
  induction l with
  | nil => intro r; rfl
  | cons p rest ih => intro r; rw [withRanks, List.map_cons, List.map_cons, ih]

theorem length_filter_withRanks (u K : Nat) (l : List PredRow) :
    ∀ r : Nat, ((withRanks u l r).filter (fun x => decide (x.rank ≤ K))).length =
      min l.length (K + 1 - r) := by
  induction l with
  | nil => intro r; simp [withRanks]
  | cons p rest ih =>
      intro r
      rw [withRanks, List.filter_cons]
      by_cases hrK : r ≤ K
      · rw [if_pos (by simp [hrK]), List.length_cons, ih (r + 1)]
        simp only [List.length_cons]
        omega
      · rw [if_neg (by simp [hrK]), ih (r + 1)]
        simp only [List.length_cons]
        omega

theorem rankUser_filter_length (preds : List PredRow) (u K : Nat) :
    ((rankUser preds u).filter (fun x => decide (x.rank ≤ K))).length =
      min (userPreds preds u).length K := by
  rw [rankUser, length_filter_withRanks u K _ 1, sortPredsDesc, List.length_insertionSort]
  omega

theorem spark_of_mem_rankUser (preds : List PredRow) (u : Nat) (rr : RankedRow)
    (h : rr ∈ rankUser preds u) : rr.spark_user_id = u :=
  spark_of_mem_withRanks u _ 1 rr h

theorem exists_pred_of_mem_rankUser (preds : List PredRow) (u : Nat) (rr : RankedRow)
    (h : rr ∈ rankUser preds u) :
    ∃ p ∈ userPreds preds u, p.recording_id = rr.recording_id := by
  have h1 : rr.recording_id ∈ (rankUser preds u).map RankedRow.recording_id :=
    List.mem_map.2 ⟨rr, h, rfl⟩
  rw [rankUser, map_rid_withRanks] at h1
  have hperm := (List.perm_insertionSort predGE (userPreds preds u)).map PredRow.recording_id
  have h2 : rr.recording_id ∈ (userPreds preds u).map PredRow.recording_id :=
    hperm.mem_iff.1 h1
  rcases List.mem_map.1 h2 with ⟨p, hp, he⟩
  exact ⟨p, hp, he⟩

theorem user_id_of_mem_leftJoin (discovery : List DiscoveryRow) (rr : RankedRow)
    (s : String) (e' : Nat) (j : JoinedRow) (hj : j ∈ leftJoinDiscovery discovery rr s e') :
    j.user_id = e' := by
  rw [leftJoinDiscovery] at hj
  split at hj
  · rcases List.mem_singleton.1 hj with rfl
    rfl
  · rcases List.mem_map.1 hj with ⟨d, _, rfl⟩
    rfl

theorem leftJoin_single (discovery : List DiscoveryRow) (rr : RankedRow) (s : String) (e : Nat)
    (h : (discoveryMatches discovery e s).length ≤ 1) :
    leftJoinDiscovery discovery rr s e =
      [⟨rr.spark_user_id, rr.recording_id, rr.score, rr.rank, e, s,
        ((discoveryMatches discovery e s).head?).map DiscoveryRow.latest_listened_at⟩] := by
  rw [leftJoinDiscovery]
  cases hm : discoveryMatches discovery e s with
  | nil => simp
  | cons d ds =>
      cases ds with
      | nil => simp
      | cons d2 ds2 =>
          rw [hm] at h
          simp at h

theorem filter_e_leftJoin (discovery : List DiscoveryRow) (rr : RankedRow) (s : String)
    (e' e : Nat) :
    (leftJoinDiscovery discovery rr s e').filter (fun j => decide (j.user_id = e)) =
      if decide (e' = e) then leftJoinDiscovery discovery rr s e' else [] := by
  by_cases h : e' = e
  · subst h
    rw [if_pos (by simp), List.filter_eq_self]
    intro j hj
    simp [user_id_of_mem_leftJoin discovery rr s e' j hj]
  · rw [if_neg (by simp [h]), List.filter_eq_nil_iff]
    intro j hj
    simp [user_id_of_mem_leftJoin discovery rr s e' j hj, h]

theorem joined_filter_e (preds : List PredRow) (recordings : List RecordingRow)
    (userTable : List UserRow) (discovery : List DiscoveryRow) (u e : Nat) (f : Nat → String)
    (hu : userTable.filter (fun w => decide (w.user_id = e)) = [⟨u, e⟩])
    (hmm : ∀ p ∈ userPreds preds u,
      recordings.filter (fun m => decide (m.recording_id = p.recording_id)) =
        [⟨p.recording_id, f p.recording_id⟩])
    (hd : ∀ p ∈ userPreds preds u,
      (discoveryMatches discovery e (f p.recording_id)).length ≤ 1) :
    (joinedRows preds recordings userTable discovery).filter
        (fun j => decide (j.user_id = e)) =
      (rankUser preds u).map (jrowOf discovery e f) := by
  have huser : ∀ u' : Nat, u' ≠ u →
      (userTable.filter (fun w => decide (w.spark_user_id = u'))).filter
        (fun w => decide (w.user_id = e)) = [] := by
    intro u' hne
    rw [List.filter_eq_nil_iff]
    intro w hw
    simp only [decide_eq_true_eq]
    intro hwe
    have hw1 := List.mem_filter.1 hw
    have hsp : w.spark_user_id = u' := by simpa using hw1.2
    have hwmem : w ∈ userTable.filter (fun w => decide (w.user_id = e)) :=
      List.mem_filter.2 ⟨hw1.1, by simp [hwe]⟩
    rw [hu] at hwmem
    rcases List.mem_singleton.1 hwmem with rfl
    exact hne hsp.symm
  have huser2 :
      (userTable.filter (fun w => decide (w.spark_user_id = u))).filter
        (fun w => decide (w.user_id = e)) = [(⟨u, e⟩ : UserRow)] := by
    have h1 : (userTable.filter (fun w => decide (w.user_id = e))).filter
        (fun w => decide (w.spark_user_id = u)) = [(⟨u, e⟩ : UserRow)] := by
      rw [hu, List.filter_cons, if_pos (by simp)]
      rfl
    rw [List.filter_filter] at h1
    rw [List.filter_filter, ← h1]
    exact List.filter_congr fun x _ => by rw [Bool.and_comm]
  have hkey : ∀ rr ∈ rankUser preds u,
      ((recordings.filter (fun m => decide (m.recording_id = rr.recording_id))).flatMap (fun m =>
        (userTable.filter (fun w => decide (w.spark_user_id = rr.spark_user_id))).flatMap (fun w =>
          leftJoinDiscovery discovery rr m.recording_mbid w.user_id))).filter
        (fun j => decide (j.user_id = e)) = [jrowOf discovery e f rr] := by
    intro rr hrr
    obtain ⟨p, hp, hpe⟩ := exists_pred_of_mem_rankUser preds u rr hrr
    have hsp := spark_of_mem_rankUser preds u rr hrr
    have hmrr : recordings.filter (fun m => decide (m.recording_id = rr.recording_id)) =
        [⟨rr.recording_id, f rr.recording_id⟩] := by
      have hcopy := hmm p hp
      rw [hpe] at hcopy
      exact hcopy
    have hdrr : (discoveryMatches discovery e (f rr.recording_id)).length ≤ 1 := by
      have hcopy := hd p hp
      rw [hpe] at hcopy
      exact hcopy
    rw [hmrr, hsp]
    simp only [List.flatMap_cons, List.flatMap_nil, List.append_nil]
    rw [List.filter_flatMap]
    have hstep : (userTable.filter (fun w => decide (w.spark_user_id = u))).flatMap
        (fun w => (leftJoinDiscovery discovery rr (f rr.recording_id) w.user_id).filter
          (fun j => decide (j.user_id = e))) =
        (userTable.filter (fun w => decide (w.spark_user_id = u))).flatMap
        (fun w => if decide (w.user_id = e) then
            leftJoinDiscovery discovery rr (f rr.recording_id) w.user_id else []) :=
      flatMap_congr_mem fun w _ => filter_e_leftJoin discovery rr (f rr.recording_id) w.user_id e
    rw [hstep, flatMap_ite_eq_filter_flatMap, huser2]
    simp only [List.flatMap_cons, List.flatMap_nil, List.append_nil]
    rw [leftJoin_single discovery rr (f rr.recording_id) e hdrr]
    rfl
  have hside : ∀ u' ∈ partitionUsers preds, u' ≠ u →
      ((rankUser preds u').flatMap (fun rr =>
        (recordings.filter (fun m => decide (m.recording_id = rr.recording_id))).flatMap (fun m =>
          (userTable.filter (fun w => decide (w.spark_user_id = rr.spark_user_id))).flatMap (fun w =>
            leftJoinDiscovery discovery rr m.recording_mbid w.user_id)))).filter
        (fun j => decide (j.user_id = e)) = [] := by
    intro u' _ hne
    rw [List.filter_flatMap]
    refine flatMap_eq_nil_of fun rr hrr => ?_
    have hsp := spark_of_mem_rankUser preds u' rr hrr
    rw [List.filter_flatMap]
    refine flatMap_eq_nil_of fun m _ => ?_
    rw [List.filter_flatMap]
    refine flatMap_eq_nil_of fun w hw => ?_
    rw [filter_e_leftJoin]
    by_cases hwe : w.user_id = e
    · exfalso
      rw [hsp] at hw
      have hwmem : w ∈ (userTable.filter (fun w => decide (w.spark_user_id = u'))).filter
          (fun w => decide (w.user_id = e)) := List.mem_filter.2 ⟨hw, by simp [hwe]⟩
      rw [huser u' hne] at hwmem
      cases hwmem
    · rw [if_neg (by simp [hwe])]
  have hstep1 : (joinedRows preds recordings userTable discovery).filter
      (fun j => decide (j.user_id = e)) =
      (partitionUsers preds).flatMap (fun u' =>
        ((rankUser preds u').flatMap (fun rr =>
          (recordings.filter (fun m => decide (m.recording_id = rr.recording_id))).flatMap (fun m =>
            (userTable.filter (fun w => decide (w.spark_user_id = rr.spark_user_id))).flatMap (fun w =>
              leftJoinDiscovery discovery rr m.recording_mbid w.user_id)))).filter
          (fun j => decide (j.user_id = e))) := by
    rw [joinedRows, ranked_recommendation, List.flatMap_assoc, List.filter_flatMap]
  have hstep2 := flatMap_support_single (partitionUsers preds) u
    (fun u' => ((rankUser preds u').flatMap (fun rr =>
        (recordings.filter (fun m => decide (m.recording_id = rr.recording_id))).flatMap (fun m =>
          (userTable.filter (fun w => decide (w.spark_user_id = rr.spark_user_id))).flatMap (fun w =>
            leftJoinDiscovery discovery rr m.recording_mbid w.user_id)))).filter
        (fun j => decide (j.user_id = e)))
    (List.nodup_dedup _) hside
  rw [hstep1, hstep2]
  by_cases hmem : u ∈ partitionUsers preds
  · rw [if_pos hmem]
    beta_reduce
    rw [List.filter_flatMap, flatMap_congr_mem hkey]
    exact flatMap_singleton_fun _ _
  · rw [if_neg hmem]
    have hempty : userPreds preds u = [] := by
      rw [userPreds, List.filter_eq_nil_iff]
      intro p hp
      simp only [decide_eq_true_eq]
      intro hpu
      exact hmem (List.mem_dedup.2 (List.mem_map.2 ⟨p, hp, hpu⟩))
    rw [rankUser, hempty]
    rfl

theorem kept_filter_e (preds : List PredRow) (recordings : List RecordingRow)
    (userTable : List UserRow) (discovery : List DiscoveryRow) (limit : Nat)
    (u e : Nat) (f : Nat → String)
    (hu : userTable.filter (fun w => decide (w.user_id = e)) = [⟨u, e⟩])
    (hmm : ∀ p ∈ userPreds preds u,
      recordings.filter (fun m => decide (m.recording_id = p.recording_id)) =
        [⟨p.recording_id, f p.recording_id⟩])
    (hd : ∀ p ∈ userPreds preds u,
      (discoveryMatches discovery e (f p.recording_id)).length ≤ 1) :
    (keptRows preds recordings userTable discovery limit).filter
        (fun j => decide (j.user_id = e)) =
      ((rankUser preds u).filter (fun x => decide (x.rank ≤ limit))).map
        (jrowOf discovery e f) := by
  have h1 : (keptRows preds recordings userTable discovery limit).filter
      (fun j => decide (j.user_id = e)) =
      ((joinedRows preds recordings userTable discovery).filter
        (fun j => decide (j.user_id = e))).filter (fun j => decide (j.rank ≤ limit)) := by
    rw [keptRows, List.filter_filter, List.filter_filter]
    exact List.filter_congr fun x _ => by rw [Bool.and_comm]
  rw [h1, joined_filter_e preds recordings userTable discovery u e f hu hmm hd,
    List.filter_map]
  rfl

theorem find?_map_key {α : Type} (keys : List Nat) (mk : Nat → α) (key : α → Nat)
    (hk : ∀ a, key (mk a) = a) (e : Nat) :
    (keys.map mk).find? (fun r => decide (key r = e)) =
      (keys.find? (fun a => decide (a = e))).map mk := by
  induction keys with
  | nil => rfl
  | cons a t ih =>
      by_cases hae : a = e
      · subst hae
        rw [List.map_cons, List.find?_cons_of_pos _ (by simp [hk]),
          List.find?_cons_of_pos _ (by simp)]
        rfl
      · rw [List.map_cons, List.find?_cons_of_neg _ (by simp [hk, hae]),
          List.find?_cons_of_neg _ (by simp [hae]), ih]

theorem recListFor_process (preds : List PredRow) (recordings : List RecordingRow)
    (userTable : List UserRow) (discovery : List DiscoveryRow) (limit : Nat) (e : Nat) :
    recListFor (process_recommendations preds recordings userTable discovery limit) e =
      if e ∈ (keptRows preds recordings userTable discovery limit).map
          (fun j => j.user_id) then
        sortItemsDesc (((keptRows preds recordings userTable discovery limit).filter
          (fun j => decide (j.user_id = e))).map toRecItem)
      else [] := by
  rw [recListFor, process_recommendations,
    find?_map_key _ _ RecsRow.user_id (fun a => rfl) e]
  by_cases he : e ∈ (keptRows preds recordings userTable discovery limit).map
      (fun j => j.user_id)
  · have hd' : e ∈ ((keptRows preds recordings userTable discovery limit).map
        (fun j => j.user_id)).dedup := List.mem_dedup.2 he
    rw [find?_self_of_mem hd', if_pos he]
    rfl
  · have hd' : e ∉ ((keptRows preds recordings userTable discovery limit).map
        (fun j => j.user_id)).dedup := fun hh => he (List.mem_dedup.1 hh)
    have hnone : (((keptRows preds recordings userTable discovery limit).map
        (fun j => j.user_id)).dedup).find? (fun a => decide (a = e)) = none := by
      rw [List.find?_eq_none]
      intro x hx
      simp only [decide_eq_true_eq]
      intro hxe
      exact hd' (hxe ▸ hx)
    rw [hnone, if_neg he]
    rfl

theorem process_out_user_ids (preds : List PredRow) (recordings : List RecordingRow)
    (userTable : List UserRow) (discovery : List DiscoveryRow) (limit : Nat) :
    (process_recommendations preds recordings userTable discovery limit).map
        RecsRow.user_id =
      ((keptRows preds recordings userTable discovery limit).map
        (fun j => j.user_id)).dedup := by
  rw [process_recommendations, List.map_map]
  exact List.map_id _

theorem process_nodup_user_ids (preds : List PredRow) (recordings : List RecordingRow)
    (userTable : List UserRow) (discovery : List DiscoveryRow) (limit : Nat) :
    ((process_recommendations preds recordings userTable discovery limit).map
      RecsRow.user_id).Nodup := by
  rw [process_out_user_ids]
  exact List.nodup_dedup _

theorem process_length_eq_dedup (preds : List PredRow) (recordings : List RecordingRow)
    (userTable : List UserRow) (discovery : List DiscoveryRow) (limit : Nat) :
    (process_recommendations preds recordings userTable discovery limit).length =
      ((process_recommendations preds recordings userTable discovery limit).map
        RecsRow.user_id).dedup.length := by
  rw [process_out_user_ids, List.dedup_idem, process_recommendations, List.length_map]

theorem mem_rid_userPreds_of_mem_filter_rankUser (preds : List PredRow) (u limit x : Nat)
    (hx : x ∈ ((rankUser preds u).filter
      (fun y => decide (y.rank ≤ limit))).map RankedRow.recording_id) :
    x ∈ (userPreds preds u).map PredRow.recording_id := by
  rcases List.mem_map.1 hx with ⟨rr, hrr, rfl⟩
  have hrr2 : rr ∈ rankUser preds u := (List.mem_filter.1 hrr).1
  obtain ⟨p, hp, hpe⟩ := exists_pred_of_mem_rankUser preds u rr hrr2
  exact List.mem_map.2 ⟨p, hp, hpe⟩

/-! ### Claim theorems -/

/-- C1: for every user with `n` candidate predictions and every limit `K`, the
RankedList produced for that user by `process_recommendations` has length
exactly `min n K`.  The hypotheses are the data-model invariants of the
ambient lookup tables assumed by the pipeline: the user's internal id is the
only one mapped to its external id, every predicted recording has exactly one
metadata row, and the listen history holds at most one row per (user, mbid)
pair. -/
theorem C1_ranked_list_length (preds : List PredRow) (recordings : List RecordingRow)
    (userTable : List UserRow) (discovery : List DiscoveryRow) (limit : Nat)
    (u e : Nat) (f : Nat → String)
    (hu : userTable.filter (fun w => decide (w.user_id = e)) = [⟨u, e⟩])
    (hmm : ∀ p ∈ userPreds preds u,
      recordings.filter (fun m => decide (m.recording_id = p.recording_id)) =
        [⟨p.recording_id, f p.recording_id⟩])
    (hd : ∀ p ∈ userPreds preds u,
      (discoveryMatches discovery e (f p.recording_id)).length ≤ 1) :
    (recListFor (process_recommendations preds recordings userTable discovery limit)
        e).length =
      min (userPreds preds u).length limit := by
  by_cases he : e ∈ (keptRows preds recordings userTable discovery limit).map
      (fun j => j.user_id)
  · rw [recListFor_process, if_pos he, sortItemsDesc, List.length_insertionSort,
      List.length_map, kept_filter_e preds recordings userTable discovery limit u e f hu hmm hd,
      List.length_map, rankUser_filter_length]
  · rw [recListFor_process, if_neg he]
    have h1 := kept_filter_e preds recordings userTable discovery limit u e f hu hmm hd
    have h2 : ((rankUser preds u).filter (fun x => decide (x.rank ≤ limit))).map
        (jrowOf discovery e f) = [] := by
      rw [← h1]
      exact filter_key_eq_nil (fun j : JoinedRow => j.user_id) _ e he
    have h3 := congrArg List.length h2
    rw [List.length_map, rankUser_filter_length] at h3
    simpa using h3.symm

/-- C1 witness: user 1 (external id 100) has 3 candidate predictions and
limit 2 gives a RankedList of length min 3 2. -/
theorem C1_ranked_list_length_witness :
    (recListFor (process_recommendations
        [⟨1, 10, 2⟩, ⟨1, 11, 1⟩, ⟨1, 12, 3⟩]
        [⟨10, "a"⟩, ⟨11, "b"⟩, ⟨12, "c"⟩]
        [⟨1, 100⟩] [⟨100, "c", 55⟩] 2) 100).length =
      min (userPreds [⟨1, 10, 2⟩, ⟨1, 11, 1⟩, ⟨1, 12, 3⟩] 1).length 2 :=
  C1_ranked_list_length [⟨1, 10, 2⟩, ⟨1, 11, 1⟩, ⟨1, 12, 3⟩]
    [⟨10, "a"⟩, ⟨11, "b"⟩, ⟨12, "c"⟩] [⟨1, 100⟩] [⟨100, "c", 55⟩] 2 1 100
    (fun rid => if rid = 10 then "a" else if rid = 11 then "b" else "c")
    (by decide) (by decide) (by decide)

/-- C2: in every RankedList produced by `process_recommendations`, scores are
non-increasing over adjacent entries. -/
theorem C2_scores_non_increasing (preds : List PredRow) (recordings : List RecordingRow)
    (userTable : List UserRow) (discovery : List DiscoveryRow) (limit : Nat) (row : RecsRow)
    (h : row ∈ process_recommendations preds recordings userTable discovery limit) :
    List.Chain' (fun a b : RecItem => b.score ≤ a.score) row.recs := by
  rw [process_recommendations] at h
  rcases List.mem_map.1 h with ⟨e, _, rfl⟩
  exact List.Pairwise.chain' (List.sorted_insertionSort itemGE _)

/-- C2 witness: a concrete output row of the ranking operation, with its
non-increasing score chain. -/
theorem C2_scores_non_increasing_witness :
    (⟨100, [⟨"a", 2, none⟩, ⟨"b", 1, none⟩]⟩ : RecsRow) ∈
      process_recommendations [⟨1, 10, 2⟩, ⟨1, 11, 1⟩] [⟨10, "a"⟩, ⟨11, "b"⟩]
        [⟨1, 100⟩] [] 2 ∧
    List.Chain' (fun a b : RecItem => b.score ≤ a.score)
      (⟨100, [⟨"a", 2, none⟩, ⟨"b", 1, none⟩]⟩ : RecsRow).recs :=
  ⟨by decide, C2_scores_non_increasing [⟨1, 10, 2⟩, ⟨1, 11, 1⟩] [⟨10, "a"⟩, ⟨11, "b"⟩]
    [⟨1, 100⟩] [] 2 _ (by decide)⟩

/-- C3 counterexample: with a predictor whose raw top-N output is empty, the
flattened prediction set of the raw path is empty, yet
`get_raw_recommendations` returns the empty result instead of failing, while
`generate_recommendations` (the ranking path that implements the
RecommendationsNotGenerated check) raises on its matching empty prediction
set. -/
theorem C3_raw_empty_counterexample :
    get_raw_recommendations ⟨fun _ => [], fun _ _ => []⟩ 5 [⟨1, 100⟩] [] [] [] = [] ∧
    generate_recommendations [(1, 10)] ⟨fun _ => [], fun _ _ => []⟩ 5 [] [] [] =
      Except.error RecError.recommendationsNotGenerated :=
  ⟨rfl, rfl⟩

/-- C3 (amended): if the raw path's flattened prediction set is empty,
`get_raw_recommendations` returns an empty result and raises nothing; the
RecommendationsNotGenerated check exists only on the candidate-set path
(`generate_recommendations`). -/
theorem C3_raw_empty_returns_empty (model : Model) (limit : Nat) (users_df : List UserRow)
    (recordings : List RecordingRow) (userTable : List UserRow)
    (discovery : List DiscoveryRow)
    (h : flattenRaw model limit users_df = []) :
    get_raw_recommendations model limit users_df recordings userTable discovery = [] := by
  show process_recommendations (flattenRaw model limit users_df) recordings userTable
    discovery limit = []
  rw [h]
  rfl

/-- C3 amended-claim witness: a predictor returning an empty nested list for
every user flattens to no predictions and the raw path yields the empty
result. -/
theorem C3_raw_empty_returns_empty_witness :
    flattenRaw ⟨fun _ => [], fun us _ => us.map (fun v => (v, []))⟩ 7 [⟨2, 200⟩] = [] ∧
    get_raw_recommendations ⟨fun _ => [], fun us _ => us.map (fun v => (v, []))⟩ 7
      [⟨2, 200⟩] [] [] [] = [] :=
  ⟨rfl, C3_raw_empty_returns_empty ⟨fun _ => [], fun us _ => us.map (fun v => (v, []))⟩ 7
    [⟨2, 200⟩] [] [] [] rfl⟩

/-- C4 counterexample: an item-metadata table that maps two recording ids to
the same mbid makes that mbid appear twice in a single RankedList, so
uniqueness does not hold for all possible item-metadata tables. -/
theorem C4_duplicate_mbid_counterexample :
    ∃ row ∈ process_recommendations [⟨1, 10, 2⟩, ⟨1, 11, 1⟩]
        [⟨10, "a"⟩, ⟨11, "a"⟩] [⟨1, 100⟩] [] 2,
      ¬ (row.recs.map RecItem.recording_mbid).Nodup := by
  decide

/-- C4 (amended): within one RankedList no itemMbid repeats, provided the
item-metadata table resolves each of the user's predicted recording ids to
exactly one mbid and injectively so, the user's predictions carry distinct
recording ids, the user's internal id is the only one mapped to its external
id, and the listen history holds at most one row per (user, mbid) pair. -/
theorem C4_unique_mbids (preds : List PredRow) (recordings : List RecordingRow)
    (userTable : List UserRow) (discovery : List DiscoveryRow) (limit : Nat)
    (u e : Nat) (f : Nat → String)
    (hu : userTable.filter (fun w => decide (w.user_id = e)) = [⟨u, e⟩])
    (hmm : ∀ p ∈ userPreds preds u,
      recordings.filter (fun m => decide (m.recording_id = p.recording_id)) =
        [⟨p.recording_id, f p.recording_id⟩])
    (hd : ∀ p ∈ userPreds preds u,
      (discoveryMatches discovery e (f p.recording_id)).length ≤ 1)
    (hnd : ((userPreds preds u).map PredRow.recording_id).Nodup)
    (hinj : ∀ p ∈ userPreds preds u, ∀ q ∈ userPreds preds u,
      f p.recording_id = f q.recording_id → p.recording_id = q.recording_id) :
    ((recListFor (process_recommendations preds recordings userTable discovery limit)
        e).map RecItem.recording_mbid).Nodup := by
  by_cases he : e ∈ (keptRows preds recordings userTable discovery limit).map
      (fun j => j.user_id)
  · rw [recListFor_process, if_pos he]
    have hperm : List.Perm
        ((sortItemsDesc (((keptRows preds recordings userTable discovery
          limit).filter (fun j => decide (j.user_id = e))).map toRecItem)).map
          RecItem.recording_mbid)
        (((((keptRows preds recordings userTable discovery limit).filter
          (fun j => decide (j.user_id = e))).map toRecItem)).map RecItem.recording_mbid) :=
      (List.perm_insertionSort itemGE _).map RecItem.recording_mbid
    rw [List.Perm.nodup_iff hperm,
      kept_filter_e preds recordings userTable discovery limit u e f hu hmm hd,
      List.map_map, List.map_map]
    have hkr_nodup : (((rankUser preds u).filter
        (fun x => decide (x.rank ≤ limit))).map RankedRow.recording_id).Nodup := by
      have hsubm := (List.filter_sublist (rankUser preds u)
        (p := fun x => decide (x.rank ≤ limit))).map RankedRow.recording_id
      have hr : (rankUser preds u).map RankedRow.recording_id =
          (sortPredsDesc (userPreds preds u)).map PredRow.recording_id := by
        rw [rankUser, map_rid_withRanks]
      have hpm : List.Perm ((sortPredsDesc (userPreds preds u)).map PredRow.recording_id)
          ((userPreds preds u).map PredRow.recording_id) :=
        (List.perm_insertionSort predGE _).map _
      have hnd2 : ((rankUser preds u).map RankedRow.recording_id).Nodup := by
        rw [hr, List.Perm.nodup_iff hpm]
        exact hnd
      exact List.Nodup.sublist hsubm hnd2
    have hinj2 : ∀ x ∈ ((rankUser preds u).filter
        (fun x => decide (x.rank ≤ limit))).map RankedRow.recording_id,
        ∀ y ∈ ((rankUser preds u).filter
          (fun x => decide (x.rank ≤ limit))).map RankedRow.recording_id,
        f x = f y → x = y := by
      intro x hx y hy hf
      have hx2 := mem_rid_userPreds_of_mem_filter_rankUser preds u limit x hx
      have hy2 := mem_rid_userPreds_of_mem_filter_rankUser preds u limit y hy
      rcases List.mem_map.1 hx2 with ⟨p, hp, rfl⟩
      rcases List.mem_map.1 hy2 with ⟨q, hq, rfl⟩
      exact hinj p hp q hq hf
    have hnodupmapf := List.Nodup.map_on hinj2 hkr_nodup
    have hfuse : ((((rankUser preds u).filter
        (fun x => decide (x.rank ≤ limit))).map RankedRow.recording_id)).map f =
        ((rankUser preds u).filter (fun x => decide (x.rank ≤ limit))).map
          (f ∘ RankedRow.recording_id) :=
      List.map_map f RankedRow.recording_id _
    rw [hfuse] at hnodupmapf
    exact hnodupmapf
  · rw [recListFor_process, if_neg he]
    simp

/-- C4 amended-claim witness: with an injective metadata table the produced
RankedList carries distinct mbids. -/
theorem C4_unique_mbids_witness :
    ((recListFor (process_recommendations [⟨1, 10, 2⟩, ⟨1, 11, 1⟩]
        [⟨10, "a"⟩, ⟨11, "b"⟩] [⟨1, 100⟩] [] 2) 100).map
      RecItem.recording_mbid).Nodup :=
  C4_unique_mbids [⟨1, 10, 2⟩, ⟨1, 11, 1⟩] [⟨10, "a"⟩, ⟨11, "b"⟩] [⟨1, 100⟩] [] 2 1 100
    (fun rid => if rid = 10 then "a" else "b")
    (by decide) (by decide) (by decide) (by decide) (by decide)

/-- C5: every user appearing in at least one of the three per-source inputs
gets exactly one bundle message, and each source the user is absent from
appears in that bundle as an empty list. -/
theorem C5_one_bundle_with_defaults (model_id model_html_file : String)
    (ta sa raw : List RecsRow) (act : Nat) (t : Rat) (u : Nat)
    (h : u ∈ ta.map RecsRow.user_id ∨ u ∈ sa.map RecsRow.user_id ∨
      u ∈ raw.map RecsRow.user_id) :
    ∃ b : Bundle,
      (create_messages model_id model_html_file ta sa raw act t).filter (isUserMsgFor u) =
        [Message.userMsg u "cf_recommendations_recording_recommendations"
          b.top_artist b.similar_artist b.raw model_id (modelUrl model_html_file)] ∧
      (u ∉ ta.map RecsRow.user_id → b.top_artist = []) ∧
      (u ∉ sa.map RecsRow.user_id → b.similar_artist = []) ∧
      (u ∉ raw.map RecsRow.user_id → b.raw = []) := by
  have hkeys : u ∈ (bundlesOf ta sa raw).map Prod.fst := by
    rw [bundlesOf, mem_keys_ingest, mem_keys_ingest, mem_keys_ingest]
    rcases h with h | h | h
    · exact Or.inl (Or.inl (Or.inr h))
    · exact Or.inl (Or.inr h)
    · exact Or.inr h
  have hnodup : ((bundlesOf ta sa raw).map Prod.fst).Nodup := by
    rw [bundlesOf]
    exact nodup_keys_ingest _ _ _
      (nodup_keys_ingest _ _ _ (nodup_keys_ingest _ _ _ (by simp)))
  obtain ⟨b, hb⟩ := (lookupB_isSome_iff _ u).2 hkeys
  refine ⟨b, ?_, ?_, ?_, ?_⟩
  · rw [create_messages, List.filter_append]
    have h3 : ((bundlesOf ta sa raw).map (toUserMessage model_id model_html_file)).filter
        (isUserMsgFor u) =
        ((bundlesOf ta sa raw).filter (fun p => decide (p.1 = u))).map
          (toUserMessage model_id model_html_file) := by
      rw [List.filter_map]
      rfl
    rw [h3, filter_eq_single_of_lookup _ u b hnodup hb]
    rfl
  · intro hta
    rw [bundlesOf] at hb
    calc b.top_artist
        = Bundle.top_artist ((lookupB (ingest setRaw (ingest setSimilar
            (ingest setTop [] ta) sa) raw) u).getD emptyBundle) := by rw [hb]; rfl
      _ = Bundle.top_artist ((lookupB (ingest setSimilar (ingest setTop [] ta) sa)
            u).getD emptyBundle) :=
          lookupB_ingest_field setRaw Bundle.top_artist (fun _ _ => rfl) raw u _
      _ = Bundle.top_artist ((lookupB (ingest setTop [] ta) u).getD emptyBundle) :=
          lookupB_ingest_field setSimilar Bundle.top_artist (fun _ _ => rfl) sa u _
      _ = Bundle.top_artist ((lookupB [] u).getD emptyBundle) := by
          rw [lookupB_ingest_notmem setTop ta u hta []]
      _ = [] := rfl
  · intro hsa
    rw [bundlesOf] at hb
    calc b.similar_artist
        = Bundle.similar_artist ((lookupB (ingest setRaw (ingest setSimilar
            (ingest setTop [] ta) sa) raw) u).getD emptyBundle) := by rw [hb]; rfl
      _ = Bundle.similar_artist ((lookupB (ingest setSimilar (ingest setTop [] ta) sa)
            u).getD emptyBundle) :=
          lookupB_ingest_field setRaw Bundle.similar_artist (fun _ _ => rfl) raw u _
      _ = Bundle.similar_artist ((lookupB (ingest setTop [] ta) u).getD emptyBundle) := by
          rw [lookupB_ingest_notmem setSimilar sa u hsa (ingest setTop [] ta)]
      _ = Bundle.similar_artist ((lookupB [] u).getD emptyBundle) :=
          lookupB_ingest_field setTop Bundle.similar_artist (fun _ _ => rfl) ta u []
      _ = [] := rfl
  · intro hraw
    rw [bundlesOf] at hb
    calc b.raw
        = Bundle.raw ((lookupB (ingest setRaw (ingest setSimilar
            (ingest setTop [] ta) sa) raw) u).getD emptyBundle) := by rw [hb]; rfl
      _ = Bundle.raw ((lookupB (ingest setSimilar (ingest setTop [] ta) sa)
            u).getD emptyBundle) := by
          rw [lookupB_ingest_notmem setRaw raw u hraw
            (ingest setSimilar (ingest setTop [] ta) sa)]
      _ = Bundle.raw ((lookupB (ingest setTop [] ta) u).getD emptyBundle) :=
          lookupB_ingest_field setSimilar Bundle.raw (fun _ _ => rfl) sa u _
      _ = Bundle.raw ((lookupB [] u).getD emptyBundle) :=
          lookupB_ingest_field setTop Bundle.raw (fun _ _ => rfl) ta u []
      _ = [] := rfl

/-- C5 witness: user 8 appears only in the similar_artist source and gets one
bundle whose other two sources are empty. -/
theorem C5_one_bundle_with_defaults_witness :
    (8 ∈ ([⟨7, [⟨"x", 1, none⟩]⟩] : List RecsRow).map RecsRow.user_id ∨
      8 ∈ ([⟨8, [⟨"z", 3, none⟩]⟩] : List RecsRow).map RecsRow.user_id ∨
      8 ∈ ([] : List RecsRow).map RecsRow.user_id) ∧
    ∃ b : Bundle,
      (create_messages "m1" "f.html" [⟨7, [⟨"x", 1, none⟩]⟩] [⟨8, [⟨"z", 3, none⟩]⟩] []
        5 7200).filter (isUserMsgFor 8) =
        [Message.userMsg 8 "cf_recommendations_recording_recommendations"
          b.top_artist b.similar_artist b.raw "m1" (modelUrl "f.html")] ∧
      (8 ∉ ([⟨7, [⟨"x", 1, none⟩]⟩] : List RecsRow).map RecsRow.user_id →
        b.top_artist = []) ∧
      (8 ∉ ([⟨8, [⟨"z", 3, none⟩]⟩] : List RecsRow).map RecsRow.user_id →
        b.similar_artist = []) ∧
      (8 ∉ ([] : List RecsRow).map RecsRow.user_id → b.raw = []) :=
  ⟨by decide, C5_one_bundle_with_defaults "m1" "f.html" [⟨7, [⟨"x", 1, none⟩]⟩]
    [⟨8, [⟨"z", 3, none⟩]⟩] [] 5 7200 8 (by decide)⟩

/-- C6: in the run summary of the aggregation over ranker outputs (the inputs
the pipeline feeds it), each per-source user count equals the number of
distinct users contributing to that source, computed from that source alone. -/
theorem C6_summary_distinct_user_counts (p1 p2 : List PredRow) (model : Model)
    (users_df : List UserRow) (recordings : List RecordingRow) (userTable : List UserRow)
    (discovery : List DiscoveryRow) (k1 k2 k3 : Nat) (model_id model_html_file : String)
    (act : Nat) (t : Rat) :
    (create_messages model_id model_html_file
        (process_recommendations p1 recordings userTable discovery k1)
        (process_recommendations p2 recordings userTable discovery k2)
        (get_raw_recommendations model k3 users_df recordings userTable discovery)
        act t).getLast? =
      some (Message.mail "cf_recommendations_recording_mail" act
        (((process_recommendations p1 recordings userTable discovery k1).map
          RecsRow.user_id).dedup.length)
        (((process_recommendations p2 recordings userTable discovery k2).map
          RecsRow.user_id).dedup.length)
        (((get_raw_recommendations model k3 users_df recordings userTable discovery).map
          RecsRow.user_id).dedup.length)
        (t / 3600)) := by
  have hraw : (get_raw_recommendations model k3 users_df recordings userTable
      discovery).length =
      ((get_raw_recommendations model k3 users_df recordings userTable discovery).map
        RecsRow.user_id).dedup.length :=
    process_length_eq_dedup (flattenRaw model k3 users_df) recordings userTable discovery k3
  rw [create_messages, List.getLast?_concat,
    ← process_length_eq_dedup p1 recordings userTable discovery k1,
    ← process_length_eq_dedup p2 recordings userTable discovery k2, ← hraw]

/-- C6 witness: the summary counts on a concrete run of the three
generations. -/
theorem C6_summary_distinct_user_counts_witness :
    (create_messages "m1" "f.html"
        (process_recommendations [⟨1, 10, 2⟩] [⟨10, "a"⟩] [⟨1, 100⟩] [] 5)
        (process_recommendations [⟨1, 11, 1⟩] [⟨10, "a"⟩] [⟨1, 100⟩] [] 5)
        (get_raw_recommendations ⟨fun _ => [], fun us _ => us.map (fun v => (v, [(10, 2)]))⟩
          5 [⟨1, 100⟩] [⟨10, "a"⟩] [⟨1, 100⟩] [])
        1 36).getLast? =
      some (Message.mail "cf_recommendations_recording_mail" 1
        (((process_recommendations [⟨1, 10, 2⟩] [⟨10, "a"⟩] [⟨1, 100⟩] [] 5).map
          RecsRow.user_id).dedup.length)
        (((process_recommendations [⟨1, 11, 1⟩] [⟨10, "a"⟩] [⟨1, 100⟩] [] 5).map
          RecsRow.user_id).dedup.length)
        (((get_raw_recommendations ⟨fun _ => [], fun us _ => us.map (fun v => (v, [(10, 2)]))⟩
          5 [⟨1, 100⟩] [⟨10, "a"⟩] [⟨1, 100⟩] []).map RecsRow.user_id).dedup.length)
        ((36 : Rat) / 3600)) :=
  C6_summary_distinct_user_counts [⟨1, 10, 2⟩] [⟨1, 11, 1⟩]
    ⟨fun _ => [], fun us _ => us.map (fun v => (v, [(10, 2)]))⟩ [⟨1, 100⟩] [⟨10, "a"⟩]
    [⟨1, 100⟩] [] 5 5 5 "m1" "f.html" 1 36

/-- C7: the candidate restriction fails with the EmptyCandidateSet-class error
exactly when the restricted projection is empty; with no requested users it
returns the full (spark_user_id, recording_id) projection, otherwise only the
requested users' rows. -/
theorem C7_candidate_restriction (df : List CandidateRow) (users : List Nat) :
    ((∃ err, get_candidate_set_rdd_for_user df users = Except.error err) ↔
      candidateProjection df users = []) ∧
    (get_candidate_set_rdd_for_user df users = Except.error RecError.emptyDataframe ∨
      get_candidate_set_rdd_for_user df users =
        Except.ok (candidateProjection df users)) ∧
    (users = [] → candidateProjection df users =
      df.map (fun r => (r.spark_user_id, r.recording_id))) ∧
    (users ≠ [] → candidateProjection df users =
      (df.filter (fun r => decide (r.user_id ∈ users))).map
        (fun r => (r.spark_user_id, r.recording_id))) := by
  refine ⟨⟨?_, ?_⟩, ?_, ?_, ?_⟩
  · rintro ⟨err, herr⟩
    rw [get_candidate_set_rdd_for_user] at herr
    by_cases hempty : candidateProjection df users = []
    · exact hempty
    · rw [if_neg (by simpa [List.isEmpty_iff] using hempty)] at herr
      cases herr
  · intro hempty
    exact ⟨RecError.emptyDataframe,
      by rw [get_candidate_set_rdd_for_user, if_pos (by simp [hempty])]⟩
  · by_cases hempty : candidateProjection df users = []
    · exact Or.inl (by rw [get_candidate_set_rdd_for_user, if_pos (by simp [hempty])])
    · exact Or.inr (by
        rw [get_candidate_set_rdd_for_user,
          if_neg (by simpa [List.isEmpty_iff] using hempty)])
  · intro hnil
    rw [candidateProjection, if_pos (by simp [hnil])]
  · intro hnil
    rw [candidateProjection, if_neg (by simpa [List.isEmpty_iff] using hnil)]

/-- C7 witness: the restriction applied to a concrete table with one requested
user. -/
theorem C7_candidate_restriction_witness :
    ((∃ err, get_candidate_set_rdd_for_user [⟨1, 10, 100⟩, ⟨2, 11, 200⟩] [200] =
        Except.error err) ↔
      candidateProjection [⟨1, 10, 100⟩, ⟨2, 11, 200⟩] [200] = []) ∧
    (get_candidate_set_rdd_for_user [⟨1, 10, 100⟩, ⟨2, 11, 200⟩] [200] =
        Except.error RecError.emptyDataframe ∨
      get_candidate_set_rdd_for_user [⟨1, 10, 100⟩, ⟨2, 11, 200⟩] [200] =
        Except.ok (candidateProjection [⟨1, 10, 100⟩, ⟨2, 11, 200⟩] [200])) ∧
    (([200] : List Nat) = [] → candidateProjection [⟨1, 10, 100⟩, ⟨2, 11, 200⟩] [200] =
      ([⟨1, 10, 100⟩, ⟨2, 11, 200⟩] : List CandidateRow).map
        (fun r => (r.spark_user_id, r.recording_id))) ∧
    (([200] : List Nat) ≠ [] → candidateProjection [⟨1, 10, 100⟩, ⟨2, 11, 200⟩] [200] =
      (([⟨1, 10, 100⟩, ⟨2, 11, 200⟩] : List CandidateRow).filter
        (fun r => decide (r.user_id ∈ ([200] : List Nat)))).map
        (fun r => (r.spark_user_id, r.recording_id))) :=
  C7_candidate_restriction [⟨1, 10, 100⟩, ⟨2, 11, 200⟩] [200]

/-- C8: a successful run's message sequence is the per-user bundle messages,
each carrying the model identity, followed by exactly one terminal mail
summary. -/
theorem C8_message_sequence (model_id model_html_file : String) (ta sa raw : List RecsRow)
    (active_user_count : Nat) (total_time : Rat) :
    (create_messages model_id model_html_file ta sa raw active_user_count
        total_time).getLast? =
      some (Message.mail "cf_recommendations_recording_mail" active_user_count
        ta.length sa.length raw.length (total_time / 3600)) ∧
    (∀ m ∈ (create_messages model_id model_html_file ta sa raw active_user_count
        total_time).dropLast,
      ∃ uid tl sl rl, m = Message.userMsg uid "cf_recommendations_recording_recommendations"
        tl sl rl model_id (modelUrl model_html_file)) ∧
    ((create_messages model_id model_html_file ta sa raw active_user_count
        total_time).filter isMailMsg).length = 1 := by
  refine ⟨?_, ?_, ?_⟩
  · rw [create_messages]
    exact List.getLast?_concat _
  · intro m hm
    rw [create_messages, List.dropLast_concat] at hm
    rcases List.mem_map.1 hm with ⟨p, _, rfl⟩
    exact ⟨p.1, p.2.top_artist, p.2.similar_artist, p.2.raw, rfl⟩
  · rw [create_messages, List.filter_append]
    have h1 : ((bundlesOf ta sa raw).map
        (toUserMessage model_id model_html_file)).filter isMailMsg = [] := by
      rw [List.filter_eq_nil_iff]
      intro x hx
      rcases List.mem_map.1 hx with ⟨p, _, rfl⟩
      simp [toUserMessage, isMailMsg]
    rw [h1]
    rfl

/-- C8 witness: the message sequence shape on a concrete input. -/
theorem C8_message_sequence_witness :
    (create_messages "m2" "g.html" [⟨7, [⟨"x", 1, none⟩]⟩] [] [] 4 720).getLast? =
      some (Message.mail "cf_recommendations_recording_mail" 4
        ([⟨7, [⟨"x", 1, none⟩]⟩] : List RecsRow).length ([] : List RecsRow).length
        ([] : List RecsRow).length ((720 : Rat) / 3600)) ∧
    (∀ m ∈ (create_messages "m2" "g.html" [⟨7, [⟨"x", 1, none⟩]⟩] [] [] 4 720).dropLast,
      ∃ uid tl sl rl, m = Message.userMsg uid "cf_recommendations_recording_recommendations"
        tl sl rl "m2" (modelUrl "g.html")) ∧
    ((create_messages "m2" "g.html" [⟨7, [⟨"x", 1, none⟩]⟩] [] [] 4 720).filter
      isMailMsg).length = 1 :=
  C8_message_sequence "m2" "g.html" [⟨7, [⟨"x", 1, none⟩]⟩] [] [] 4 720

/-- C9: a run errors exactly when it produces no message list, and a run that
produced messages passed every fatal stage — session bootstrap, the four
dataset reads, model metadata selection, model load, the active-user
computation and both candidate-set generations — with the messages being
exactly the aggregation of the three generations; hence any stage failure
yields a single terminating error and no output. -/
theorem C9_fail_fast (env : Env) (tl sl rl : Nat) (users : List Nat) :
    ((∃ err, main env tl sl rl users = Except.error err) ↔
      ¬ ∃ msgs, main env tl sl rl users = Except.ok msgs) ∧
    (∀ msgs, main env tl sl rl users = Except.ok msgs →
      ∃ recordings top_artist_candidate_set similar_artist_candidate_set
        recording_discovery model_metadata meta model users_df top_artist_recs
        similar_artist_recs,
        env.session = Except.ok () ∧
        env.recordingsRead = Except.ok recordings ∧
        env.topArtistCandidateRead = Except.ok top_artist_candidate_set ∧
        env.similarArtistCandidateRead = Except.ok similar_artist_candidate_set ∧
        env.recordingDiscoveryRead = Except.ok recording_discovery ∧
        env.modelMetadataRead = Except.ok model_metadata ∧
        get_most_recent_model_meta model_metadata = Except.ok meta ∧
        env.modelLoad = Except.ok model ∧
        get_user_name_and_user_id top_artist_candidate_set users = Except.ok users_df ∧
        get_recommendations_for_candidate_set model top_artist_candidate_set tl users
          recordings users_df recording_discovery = Except.ok top_artist_recs ∧
        get_recommendations_for_candidate_set model similar_artist_candidate_set sl users
          recordings users_df recording_discovery = Except.ok similar_artist_recs ∧
        msgs = create_messages meta.1 meta.2 top_artist_recs similar_artist_recs
          (get_raw_recommendations model rl users_df recordings users_df
            recording_discovery)
          users_df.length env.totalTime) := by
  constructor
  · constructor
    · rintro ⟨err, herr⟩ ⟨msgs, hok⟩
      rw [herr] at hok
      cases hok
    · intro hno
      cases hmain : main env tl sl rl users with
      | error err => exact ⟨err, rfl⟩
      | ok msgs => exact absurd ⟨msgs, hmain⟩ hno
  · intro msgs hok
    rw [main] at hok
    cases hs : env.session with
    | error e => rw [hs] at hok; simp [Except.bind] at hok
    | ok u0 =>
    rw [hs] at hok
    simp only [Except.bind] at hok
    cases h1 : env.recordingsRead with
    | error e => rw [h1] at hok; simp [Except.bind] at hok
    | ok recordings =>
    rw [h1] at hok
    simp only [Except.bind] at hok
    cases h2 : env.topArtistCandidateRead with
    | error e => rw [h2] at hok; simp [Except.bind] at hok
    | ok top_artist_candidate_set =>
    rw [h2] at hok
    simp only [Except.bind] at hok
    cases h3 : env.similarArtistCandidateRead with
    | error e => rw [h3] at hok; simp [Except.bind] at hok
    | ok similar_artist_candidate_set =>
    rw [h3] at hok
    simp only [Except.bind] at hok
    cases h4 : env.recordingDiscoveryRead with
    | error e => rw [h4] at hok; simp [Except.bind] at hok
    | ok recording_discovery =>
    rw [h4] at hok
    simp only [Except.bind] at hok
    cases h5 : env.modelMetadataRead with
    | error e => rw [h5] at hok; simp [Except.bind] at hok
    | ok model_metadata =>
    rw [h5] at hok
    simp only [Except.bind] at hok
    cases h6 : get_most_recent_model_meta model_metadata with
    | error e => rw [h6] at hok; simp [Except.bind] at hok
    | ok meta =>
    rw [h6] at hok
    simp only [Except.bind] at hok
    cases h7 : env.modelLoad with
    | error e => rw [h7] at hok; simp [Except.bind] at hok
    | ok model =>
    rw [h7] at hok
    simp only [Except.bind] at hok
    cases h8 : get_user_name_and_user_id top_artist_candidate_set users with
    | error e => rw [h8] at hok; simp [Except.bind] at hok
    | ok users_df =>
    rw [h8] at hok
    simp only [Except.bind] at hok
    cases h9 : get_recommendations_for_candidate_set model top_artist_candidate_set tl
        users recordings users_df recording_discovery with
    | error e => rw [h9] at hok; simp [Except.bind] at hok
    | ok top_artist_recs =>
    rw [h9] at hok
    simp only [Except.bind] at hok
    cases h10 : get_recommendations_for_candidate_set model similar_artist_candidate_set
        sl users recordings users_df recording_discovery with
    | error e => rw [h10] at hok; simp [Except.bind] at hok
    | ok similar_artist_recs =>
    rw [h10] at hok
    simp only [Except.bind, Except.ok.injEq] at hok
    exact ⟨recordings, top_artist_candidate_set, similar_artist_candidate_set,
      recording_discovery, model_metadata, meta, model, users_df, top_artist_recs,
      similar_artist_recs, rfl, rfl, rfl, rfl, rfl, rfl, h6, rfl, h8, h9, h10, hok.symm⟩

/-- C9 witness: on a concrete environment, the run errors exactly when no
message list is produced. -/
theorem C9_fail_fast_witness :
    (∃ err, main
      { session := Except.ok ()
      , recordingsRead := Except.ok [⟨10, "a"⟩]
      , topArtistCandidateRead := Except.ok [⟨1, 10, 100⟩]
      , similarArtistCandidateRead := Except.ok [⟨1, 10, 100⟩]
      , recordingDiscoveryRead := Except.ok []
      , modelMetadataRead := Except.ok [⟨"m1", "f.html", 3⟩]
      , modelLoad := Except.ok ⟨fun cs => cs.map (fun c => ⟨c.1, c.2, 1⟩),
          fun us _ => us.map (fun v => (v, [(10, 2)]))⟩
      , totalTime := 7200 } 5 5 5 [] = Except.error err) ↔
    ¬ ∃ msgs, main
      { session := Except.ok ()
      , recordingsRead := Except.ok [⟨10, "a"⟩]
      , topArtistCandidateRead := Except.ok [⟨1, 10, 100⟩]
      , similarArtistCandidateRead := Except.ok [⟨1, 10, 100⟩]
      , recordingDiscoveryRead := Except.ok []
      , modelMetadataRead := Except.ok [⟨"m1", "f.html", 3⟩]
      , modelLoad := Except.ok ⟨fun cs => cs.map (fun c => ⟨c.1, c.2, 1⟩),
          fun us _ => us.map (fun v => (v, [(10, 2)]))⟩
      , totalTime := 7200 } 5 5 5 [] = Except.ok msgs :=
  (C9_fail_fast
    { session := Except.ok ()
    , recordingsRead := Except.ok [⟨10, "a"⟩]
    , topArtistCandidateRead := Except.ok [⟨1, 10, 100⟩]
    , similarArtistCandidateRead := Except.ok [⟨1, 10, 100⟩]
    , recordingDiscoveryRead := Except.ok []
    , modelMetadataRead := Except.ok [⟨"m1", "f.html", 3⟩]
    , modelLoad := Except.ok ⟨fun cs => cs.map (fun c => ⟨c.1, c.2, 1⟩),
        fun us _ => us.map (fun v => (v, [(10, 2)]))⟩
    , totalTime := 7200 } 5 5 5 []).1

theorem mem_keys_bundlesOf (ta sa raw : List RecsRow) (u : Nat)
    (h : u ∈ ta.map RecsRow.user_id ∨ u ∈ sa.map RecsRow.user_id ∨
      u ∈ raw.map RecsRow.user_id) :
    u ∈ (bundlesOf ta sa raw).map Prod.fst := by
  rw [bundlesOf, mem_keys_ingest, mem_keys_ingest, mem_keys_ingest]
  rcases h with h | h | h
  · exact Or.inl (Or.inl (Or.inr h))
  · exact Or.inl (Or.inr h)
  · exact Or.inr h

theorem nodup_keys_bundlesOf (ta sa raw : List RecsRow) :
    ((bundlesOf ta sa raw).map Prod.fst).Nodup := by
  rw [bundlesOf]
  exact nodup_keys_ingest _ _ _
    (nodup_keys_ingest _ _ _ (nodup_keys_ingest _ _ _ (by simp)))

theorem filter_userMsg_eq (model_id model_html_file : String) (ta sa raw : List RecsRow)
    (act : Nat) (t : Rat) (u : Nat) (b : Bundle)
    (hb : lookupB (bundlesOf ta sa raw) u = some b) :
    (create_messages model_id model_html_file ta sa raw act t).filter (isUserMsgFor u) =
      [Message.userMsg u "cf_recommendations_recording_recommendations"
        b.top_artist b.similar_artist b.raw model_id (modelUrl model_html_file)] := by
  rw [create_messages, List.filter_append]
  have h3 : ((bundlesOf ta sa raw).map (toUserMessage model_id model_html_file)).filter
      (isUserMsgFor u) =
      ((bundlesOf ta sa raw).filter (fun p => decide (p.1 = u))).map
        (toUserMessage model_id model_html_file) := by
    rw [List.filter_map]
    rfl
  rw [h3, filter_eq_single_of_lookup _ u b (nodup_keys_bundlesOf ta sa raw) hb]
  rfl

theorem bundlesOf_top_last (ta sa raw : List RecsRow) (u : Nat) (b : Bundle)
    (hu : u ∈ ta.map RecsRow.user_id)
    (hb : lookupB (bundlesOf ta sa raw) u = some b) :
    ∃ rl, lastRecsFor ta u = some rl ∧ b.top_artist = rl := by
  obtain ⟨rl, hlast, hm1⟩ := lookupB_ingest_last setTop (fun _ _ _ => rfl) ta u [] hu
  refine ⟨rl, hlast, ?_⟩
  rw [bundlesOf] at hb
  calc b.top_artist
      = Bundle.top_artist ((lookupB (ingest setRaw (ingest setSimilar
          (ingest setTop [] ta) sa) raw) u).getD emptyBundle) := by rw [hb]; rfl
    _ = Bundle.top_artist ((lookupB (ingest setSimilar (ingest setTop [] ta) sa)
          u).getD emptyBundle) :=
        lookupB_ingest_field setRaw Bundle.top_artist (fun _ _ => rfl) raw u _
    _ = Bundle.top_artist ((lookupB (ingest setTop [] ta) u).getD emptyBundle) :=
        lookupB_ingest_field setSimilar Bundle.top_artist (fun _ _ => rfl) sa u _
    _ = rl := by rw [hm1]; rfl

theorem bundlesOf_similar_last (ta sa raw : List RecsRow) (u : Nat) (b : Bundle)
    (hu : u ∈ sa.map RecsRow.user_id)
    (hb : lookupB (bundlesOf ta sa raw) u = some b) :
    ∃ rl, lastRecsFor sa u = some rl ∧ b.similar_artist = rl := by
  obtain ⟨rl, hlast, hm2⟩ := lookupB_ingest_last setSimilar (fun _ _ _ => rfl) sa u
    (ingest setTop [] ta) hu
  refine ⟨rl, hlast, ?_⟩
  rw [bundlesOf] at hb
  calc b.similar_artist
      = Bundle.similar_artist ((lookupB (ingest setRaw (ingest setSimilar
          (ingest setTop [] ta) sa) raw) u).getD emptyBundle) := by rw [hb]; rfl
    _ = Bundle.similar_artist ((lookupB (ingest setSimilar (ingest setTop [] ta) sa)
          u).getD emptyBundle) :=
        lookupB_ingest_field setRaw Bundle.similar_artist (fun _ _ => rfl) raw u _
    _ = rl := by rw [hm2]; rfl

theorem bundlesOf_raw_last (ta sa raw : List RecsRow) (u : Nat) (b : Bundle)
    (hu : u ∈ raw.map RecsRow.user_id)
    (hb : lookupB (bundlesOf ta sa raw) u = some b) :
    ∃ rl, lastRecsFor raw u = some rl ∧ b.raw = rl := by
  obtain ⟨rl, hlast, hm3⟩ := lookupB_ingest_last setRaw (fun _ _ _ => rfl) raw u
    (ingest setSimilar (ingest setTop [] ta) sa) hu
  refine ⟨rl, hlast, ?_⟩
  rw [bundlesOf] at hb
  rw [hb] at hm3
  rw [Option.some.inj hm3]
  rfl

/-- C10: the aggregation counts one per row of each of the three sources (so
duplicate user rows are counted once per row); in each source a duplicated
user's bundle keeps the list of the last row of that user in that source; and
each source's count can exceed its number of distinct users only when that
source's input has duplicate user rows. -/
theorem C10_duplicate_rows_per_source (model_id model_html_file : String)
    (ta sa raw : List RecsRow) (act : Nat) (t : Rat) :
    ((create_messages model_id model_html_file ta sa raw act t).getLast? =
      some (Message.mail "cf_recommendations_recording_mail" act ta.length sa.length
        raw.length (t / 3600))) ∧
    (∀ u ∈ ta.map RecsRow.user_id, ∃ (rl : List RecItem) (b : Bundle),
      lastRecsFor ta u = some rl ∧
      (create_messages model_id model_html_file ta sa raw act t).filter (isUserMsgFor u) =
        [Message.userMsg u "cf_recommendations_recording_recommendations" rl
          b.similar_artist b.raw model_id (modelUrl model_html_file)]) ∧
    (∀ u ∈ sa.map RecsRow.user_id, ∃ (rl : List RecItem) (b : Bundle),
      lastRecsFor sa u = some rl ∧
      (create_messages model_id model_html_file ta sa raw act t).filter (isUserMsgFor u) =
        [Message.userMsg u "cf_recommendations_recording_recommendations" b.top_artist
          rl b.raw model_id (modelUrl model_html_file)]) ∧
    (∀ u ∈ raw.map RecsRow.user_id, ∃ (rl : List RecItem) (b : Bundle),
      lastRecsFor raw u = some rl ∧
      (create_messages model_id model_html_file ta sa raw act t).filter (isUserMsgFor u) =
        [Message.userMsg u "cf_recommendations_recording_recommendations" b.top_artist
          b.similar_artist rl model_id (modelUrl model_html_file)]) ∧
    (((ta.map RecsRow.user_id).Nodup →
        ta.length = (ta.map RecsRow.user_id).dedup.length) ∧
      ((sa.map RecsRow.user_id).Nodup →
        sa.length = (sa.map RecsRow.user_id).dedup.length) ∧
      ((raw.map RecsRow.user_id).Nodup →
        raw.length = (raw.map RecsRow.user_id).dedup.length)) ∧
    (((ta.map RecsRow.user_id).dedup.length < ta.length →
        ¬ (ta.map RecsRow.user_id).Nodup) ∧
      ((sa.map RecsRow.user_id).dedup.length < sa.length →
        ¬ (sa.map RecsRow.user_id).Nodup) ∧
      ((raw.map RecsRow.user_id).dedup.length < raw.length →
        ¬ (raw.map RecsRow.user_id).Nodup)) := by
  refine ⟨?_, ?_, ?_, ?_, ⟨?_, ?_, ?_⟩, ⟨?_, ?_, ?_⟩⟩
  · rw [create_messages]
    exact List.getLast?_concat _
  · intro u hu
    obtain ⟨b, hb⟩ := (lookupB_isSome_iff _ u).2
      (mem_keys_bundlesOf ta sa raw u (Or.inl hu))
    obtain ⟨rl, hlast, hfield⟩ := bundlesOf_top_last ta sa raw u b hu hb
    refine ⟨rl, b, hlast, ?_⟩
    rw [← hfield]
    exact filter_userMsg_eq model_id model_html_file ta sa raw act t u b hb
  · intro u hu
    obtain ⟨b, hb⟩ := (lookupB_isSome_iff _ u).2
      (mem_keys_bundlesOf ta sa raw u (Or.inr (Or.inl hu)))
    obtain ⟨rl, hlast, hfield⟩ := bundlesOf_similar_last ta sa raw u b hu hb
    refine ⟨rl, b, hlast, ?_⟩
    rw [← hfield]
    exact filter_userMsg_eq model_id model_html_file ta sa raw act t u b hb
  · intro u hu
    obtain ⟨b, hb⟩ := (lookupB_isSome_iff _ u).2
      (mem_keys_bundlesOf ta sa raw u (Or.inr (Or.inr hu)))
    obtain ⟨rl, hlast, hfield⟩ := bundlesOf_raw_last ta sa raw u b hu hb
    refine ⟨rl, b, hlast, ?_⟩
    rw [← hfield]
    exact filter_userMsg_eq model_id model_html_file ta sa raw act t u b hb
  · intro hnodup
    rw [List.dedup_eq_self.2 hnodup, List.length_map]
  · intro hnodup
    rw [List.dedup_eq_self.2 hnodup, List.length_map]
  · intro hnodup
    rw [List.dedup_eq_self.2 hnodup, List.length_map]
  · intro hlt hnodup
    rw [List.dedup_eq_self.2 hnodup, List.length_map] at hlt
    exact lt_irrefl _ hlt
  · intro hlt hnodup
    rw [List.dedup_eq_self.2 hnodup, List.length_map] at hlt
    exact lt_irrefl _ hlt
  · intro hlt hnodup
    rw [List.dedup_eq_self.2 hnodup, List.length_map] at hlt
    exact lt_irrefl _ hlt

/-- C10 witness: with two top_artist rows for user 7, the theorem's
top_artist last-row conjunct gives user 7 one message keeping the second
row's list. -/
theorem C10_duplicate_rows_per_source_witness :
    ∃ (rl : List RecItem) (b : Bundle),
      lastRecsFor [⟨7, [⟨"x", 1, none⟩]⟩, ⟨7, [⟨"y", 2, none⟩]⟩] 7 = some rl ∧
      (create_messages "m1" "f.html" [⟨7, [⟨"x", 1, none⟩]⟩, ⟨7, [⟨"y", 2, none⟩]⟩]
          [⟨8, [⟨"z", 3, none⟩]⟩] [⟨9, [⟨"w", 4, none⟩]⟩] 3 36).filter (isUserMsgFor 7) =
        [Message.userMsg 7 "cf_recommendations_recording_recommendations" rl
          b.similar_artist b.raw "m1" (modelUrl "f.html")] :=
  (C10_duplicate_rows_per_source "m1" "f.html"
    [⟨7, [⟨"x", 1, none⟩]⟩, ⟨7, [⟨"y", 2, none⟩]⟩] [⟨8, [⟨"z", 3, none⟩]⟩]
    [⟨9, [⟨"w", 4, none⟩]⟩] 3 36).2.1 7 (by decide)

end Recommend
